import Mathlib

/-!
Verification development for the OpenGL cube demo (openGlProject.cpp).

The program is a single-file render loop with global mutable state.  We give a
shallow embedding: 3D vectors are triples of reals, floats are modelled as
exact reals, the global variables form one state record, and the input
handlers (processInput, mouse_callback, mouse_button_callback) become pure
state-transition functions translated line by line from the source.  glfwGetKey
polling is modelled by an Input record holding the current pressed state of
the relevant keys; deltaTime, a global set by the render loop, is passed as a
parameter to processInput.
-/

namespace OpenGlCube

/-- 3D vectors, matching glm::vec3 with real components. -/
abbrev Vec3 : Type := ℝ × ℝ × ℝ

/-- glm::cross for 3-component vectors. -/
def cross3 (a b : Vec3) : Vec3 :=
  (a.2.1 * b.2.2 - a.2.2 * b.2.1,
   a.2.2 * b.1 - a.1 * b.2.2,
   a.1 * b.2.1 - a.2.1 * b.1)

/-- glm length of a vec3. -/
noncomputable def vlen (v : Vec3) : ℝ :=
  Real.sqrt (v.1 ^ 2 + v.2.1 ^ 2 + v.2.2 ^ 2)

/-- glm::normalize: divide a vector by its length. -/
noncomputable def vnormalize (v : Vec3) : Vec3 :=
  (vlen v)⁻¹ • v

/-- glm::radians: degrees to radians. -/
noncomputable def radians (x : ℝ) : ℝ :=
  x * (Real.pi / 180)

/-- The un-normalized front vector computed in mouse_callback from yaw and
pitch: (cos(yaw)*cos(pitch), sin(pitch), sin(yaw)*cos(pitch)), angles in
degrees converted via glm::radians. -/
noncomputable def frontPre (yaw pitch : ℝ) : Vec3 :=
  (Real.cos (radians yaw) * Real.cos (radians pitch),
   Real.sin (radians pitch),
   Real.sin (radians yaw) * Real.cos (radians pitch))

/-- cameraUp: constant (0, 1, 0). -/
def cameraUp : Vec3 := (0, 1, 0)

/-- Mouse sensitivity used in mouse_callback: 0.1. -/
def sensitivity : ℝ := 0.1

/-- The global mutable state of the program: camera vectors, yaw and pitch in
degrees, last cursor position, mouse-capture bookkeeping, and the three
parallel boolean arrays of the toggle machinery.  flags models the five
variables applyTranslation, applyRotaion-style booleans pointed to by the
flags array, indexed 0..4 in the order of the source. -/
structure GState where
  cameraPos : Vec3
  cameraFront : Vec3
  yaw : ℝ
  pitch : ℝ
  lastX : ℝ
  lastY : ℝ
  firstMouse : Bool
  leftMousePressed : Bool
  keyStates : Fin 5 → Bool
  toggleStates : Fin 5 → Bool
  flags : Fin 5 → Bool

/-- The initial values of the globals at program start: cameraPos (0,0,3),
cameraFront (0,0,-1), yaw -90, pitch 0, lastX 400, lastY 300 (half of
800 by 600), firstMouse true, all booleans false. -/
def initState : GState where
  cameraPos := (0, 0, 3)
  cameraFront := (0, 0, -1)
  yaw := -90
  pitch := 0
  lastX := 400
  lastY := 300
  firstMouse := true
  leftMousePressed := false
  keyStates := fun _ => false
  toggleStates := fun _ => false
  flags := fun _ => false

/-- The keyboard state polled by processInput in one frame: the four movement
keys W, S, A, D, the five toggle keys 1..5 (keys i for key i+1), and the
reset key 0. -/
structure Input where
  pressW : Bool
  pressS : Bool
  pressA : Bool
  pressD : Bool
  keys : Fin 5 → Bool
  reset : Bool

/-- A frame with no key pressed. -/
def inputNone : Input where
  pressW := false
  pressS := false
  pressA := false
  pressD := false
  keys := fun _ => false
  reset := false

/-- A frame in which only toggle key i (numeric key i+1) is pressed. -/
def inputOnly (i : Fin 5) : Input :=
  { inputNone with keys := fun j => decide (j = i) }

/-- processInput translated from the source.  Movement keys offset cameraPos
by cameraSpeed = 2.5 * deltaTime along front (W forward, S backward) or the
normalized cross of front and up (A left, D right).  The toggle loop: for
each i in 0..4, if key i is pressed and keyStates i was false, flip
toggleStates i, copy it into the flag, and set keyStates i; if key i is not
pressed, clear keyStates i.  The net keyStates after the loop therefore
equals the pressed state of the frame.  After the loop, if key 0 is pressed,
all toggleStates and flags are set false; keyStates is not touched there. -/
noncomputable def processInput (inp : Input) (deltaTime : ℝ) (s : GState) : GState :=
  let cameraSpeed : ℝ := 2.5 * deltaTime
  let p0 := if inp.pressW then s.cameraPos + cameraSpeed • s.cameraFront else s.cameraPos
  let p1 := if inp.pressS then p0 - cameraSpeed • s.cameraFront else p0
  let p2 := if inp.pressA then
      p1 - cameraSpeed • vnormalize (cross3 s.cameraFront cameraUp) else p1
  let p3 := if inp.pressD then
      p2 + cameraSpeed • vnormalize (cross3 s.cameraFront cameraUp) else p2
  let ks : Fin 5 → Bool := fun i => inp.keys i
  let ts : Fin 5 → Bool := fun i =>
    if inp.keys i && !(s.keyStates i) then !(s.toggleStates i) else s.toggleStates i
  let fl : Fin 5 → Bool := fun i =>
    if inp.keys i && !(s.keyStates i) then !(s.toggleStates i) else s.flags i
  let ts2 := if inp.reset then (fun _ => false) else ts
  let fl2 := if inp.reset then (fun _ => false) else fl
  { s with cameraPos := p3, keyStates := ks, toggleStates := ts2, flags := fl2 }

/-- mouse_callback translated from the source.  Returns the state unchanged
when leftMousePressed is false.  Otherwise, on the first sample, lastX and
lastY are initialized to the sample and firstMouse is cleared; then the
offsets (scaled by sensitivity) accumulate into yaw and pitch, pitch is
clamped to plus or minus 89, lastX and lastY record the sample, and
cameraFront is recomputed as the normalized frontPre of the new angles. -/
noncomputable def mouse_callback (s : GState) (xpos ypos : ℝ) : GState :=
  if !s.leftMousePressed then s
  else
    let s1 := if s.firstMouse then
        { s with lastX := xpos, lastY := ypos, firstMouse := false } else s
    let xoffset := (xpos - s1.lastX) * sensitivity
    let yoffset := (s1.lastY - ypos) * sensitivity
    let yaw2 := s1.yaw + xoffset
    let pitchRaw := s1.pitch + yoffset
    let pitchHi := if pitchRaw > 89 then 89 else pitchRaw
    let pitchCl := if pitchHi < -89 then (-89 : ℝ) else pitchHi
    { s1 with lastX := xpos, lastY := ypos, yaw := yaw2, pitch := pitchCl,
              cameraFront := vnormalize (frontPre yaw2 pitchCl) }

/-- mouse_button_callback for the left button: on press, enter capture mode;
on release, reset firstMouse and leave capture mode. -/
def mouse_button_callback (s : GState) (press : Bool) : GState :=
  if press then { s with leftMousePressed := true }
  else { s with firstMouse := true, leftMousePressed := false }

/-- A mouse event as delivered by the host: a left-button press or release
(dispatched to mouse_button_callback) or a cursor move to (x, y)
(dispatched to mouse_callback).  Button events let a sequence enter and
leave capture mode, so move events in it are actually processed. -/
inductive MouseEv where
  | button : Bool → MouseEv
  | move : ℝ → ℝ → MouseEv

/-- Dispatch one mouse event to its callback. -/
noncomputable def stepMouseEv (s : GState) : MouseEv → GState
  | .button b => mouse_button_callback s b
  | .move x y => mouse_callback s x y

/-- Fold a list of mouse events through the two mouse callbacks. -/
noncomputable def mouseEvents (s : GState) (evs : List MouseEv) : GState :=
  evs.foldl stepMouseEv s

/-- Fold a list of per-frame delta times through processInput with a fixed
keyboard state, modelling a key held over several frames. -/
noncomputable def holdKey (inp : Input) (s : GState) (dts : List ℝ) : GState :=
  dts.foldl (fun st dt => processInput inp dt st) s

/-- Fold a list of keyboard frames through processInput (deltaTime 0: the
toggle machinery does not read it). -/
noncomputable def applyFrames (s : GState) (frames : List Input) : GState :=
  frames.foldl (fun st inp => processInput inp 0 st) s

/-- n discrete presses of toggle key i: each press frame is followed by a
release frame. -/
def pressRelease (i : Fin 5) : Nat → List Input
  | 0 => []
  | n + 1 => inputOnly i :: inputNone :: pressRelease i n

/-- The static vertex array from main, 6 floats per vertex (3 position, 3
color), written value for value from the source: back, front, left, right and
bottom faces, 6 vertices each. -/
def cubeVertices : List ℚ :=
  [-0.5, -0.5, -0.5, 1, 0, 0,  0.5, -0.5, -0.5, 0, 1, 0,  0.5, 0.5, -0.5, 0, 0, 1,
    0.5, 0.5, -0.5, 0, 0, 1,  -0.5, 0.5, -0.5, 1, 1, 0,  -0.5, -0.5, -0.5, 1, 1, 0,
   -0.5, -0.5, 0.5, 1, 0, 0,  0.5, -0.5, 0.5, 0, 1, 0,  0.5, 0.5, 0.5, 0, 0, 1,
    0.5, 0.5, 0.5, 0, 0, 1,  -0.5, 0.5, 0.5, 1, 1, 0,  -0.5, -0.5, 0.5, 1, 1, 0,
   -0.5, 0.5, 0.5, 1, 0, 0,  -0.5, 0.5, -0.5, 0, 1, 0,  -0.5, -0.5, -0.5, 0, 0, 1,
   -0.5, -0.5, -0.5, 0, 0, 1,  -0.5, -0.5, 0.5, 1, 1, 0,  -0.5, 0.5, 0.5, 1, 1, 0,
    0.5, 0.5, 0.5, 1, 0, 0,  0.5, 0.5, -0.5, 0, 1, 0,  0.5, -0.5, -0.5, 0, 0, 1,
    0.5, -0.5, -0.5, 0, 0, 1,  0.5, -0.5, 0.5, 1, 1, 0,  0.5, 0.5, 0.5, 1, 1, 0,
   -0.5, -0.5, -0.5, 1, 0, 0,  0.5, -0.5, -0.5, 0, 1, 0,  0.5, -0.5, 0.5, 0, 0, 1,
    0.5, -0.5, 0.5, 0, 0, 1,  -0.5, -0.5, 0.5, 1, 1, 0,  -0.5, -0.5, -0.5, 1, 1, 0]

/-- The number of floats per vertex: 3 position + 3 color, stride 6. -/
def floatsPerVertex : Nat := 6

/-- The vertex count passed to glDrawArrays(GL_TRIANGLES, 0, 36). -/
def drawCount : Nat := 36

/-- The startup environment of main: whether glfwCreateWindow succeeds and
whether gladLoadGLLoader succeeds. -/
structure HostEnv where
  windowOk : Bool
  gladOk : Bool

/-- The observable outcome of main up to its exit: the process return value
and the diagnostic lines printed.  Translated from the branch structure of
main: window-creation failure prints and returns -1; GLAD-loader failure
prints and returns -1; otherwise the render loop runs until the close
request and main returns 0. -/
def mainRun (env : HostEnv) : Int × List String :=
  if !env.windowOk then (-1, ["Failed to create GLFW window"])
  else if !env.gladOk then (-1, ["Failed to initialize GLAD"])
  else (0, [])

/-! ## Helper lemmas -/

/-- The keyStates array after a frame records exactly which toggle keys are
pressed in that frame. -/
lemma processInput_keyStates (inp : Input) (dt : ℝ) (s : GState) (i : Fin 5) :
    (processInput inp dt s).keyStates i = inp.keys i := rfl

/-- The toggleStates array after a frame: false everywhere if reset is
pressed, else flipped exactly at freshly pressed keys. -/
lemma processInput_toggleStates (inp : Input) (dt : ℝ) (s : GState) (i : Fin 5) :
    (processInput inp dt s).toggleStates i =
      if inp.reset then false
      else if inp.keys i && !(s.keyStates i) then !(s.toggleStates i)
      else s.toggleStates i := by
  simp only [processInput, apply_ite (f := fun f : Fin 5 → Bool => f i)]

/-- The flags after a frame: false everywhere if reset is pressed, else the
new toggle value at freshly pressed keys and the old flag elsewhere. -/
lemma processInput_flags (inp : Input) (dt : ℝ) (s : GState) (i : Fin 5) :
    (processInput inp dt s).flags i =
      if inp.reset then false
      else if inp.keys i && !(s.keyStates i) then !(s.toggleStates i)
      else s.flags i := by
  simp only [processInput, apply_ite (f := fun f : Fin 5 → Bool => f i)]

/-- A press frame of key i followed by a release frame flips toggle i and
leaves its debounce flag clear, from any state where key i was up. -/
lemma pressRelease_step (i : Fin 5) (s : GState) (hk : s.keyStates i = false) :
    (processInput inputNone 0 (processInput (inputOnly i) 0 s)).toggleStates i
      = !(s.toggleStates i) ∧
    (processInput inputNone 0 (processInput (inputOnly i) 0 s)).keyStates i = false := by
  constructor
  · rw [processInput_toggleStates, processInput_keyStates, processInput_toggleStates]
    simp [inputOnly, inputNone, hk]
  · rw [processInput_keyStates]
    rfl

/-- Parity of toggle i after n discrete presses of key i, generalized over
the starting state (key i up). -/
lemma pressRelease_parity (i : Fin 5) (n : Nat) :
    ∀ s : GState, s.keyStates i = false →
      (applyFrames s (pressRelease i n)).toggleStates i
        = xor (s.toggleStates i) (decide (n % 2 = 1)) ∧
      (applyFrames s (pressRelease i n)).keyStates i = false := by
  induction n with
  | zero =>
      intro s hk
      refine ⟨?_, ?_⟩
      · simp [applyFrames, pressRelease]
      · simpa [applyFrames, pressRelease] using hk
  | succ m ih =>
      intro s hk
      have hstep := pressRelease_step i s hk
      have hfold : applyFrames s (pressRelease i (m + 1))
          = applyFrames (processInput inputNone 0 (processInput (inputOnly i) 0 s))
              (pressRelease i m) := by
        simp [pressRelease, applyFrames]
      rw [hfold]
      obtain ⟨h1, h2⟩ := ih _ hstep.2
      refine ⟨?_, h2⟩
      rw [h1, hstep.1]
      have hmod : decide ((m + 1) % 2 = 1) = !(decide (m % 2 = 1)) := by
        rcases Nat.even_or_odd m with he | ho
        · have h0 : m % 2 = 0 := Nat.even_iff.mp he
          have h1 : (m + 1) % 2 = 1 := by omega
          simp [h0, h1]
        · have h0 : m % 2 = 1 := Nat.odd_iff.mp ho
          have h1 : (m + 1) % 2 = 0 := by omega
          simp [h0, h1]
      rw [hmod]
      cases s.toggleStates i <;> cases (decide (m % 2 = 1)) <;> rfl

/-- processInput never touches the camera front vector. -/
lemma processInput_cameraFront (inp : Input) (dt : ℝ) (s : GState) :
    (processInput inp dt s).cameraFront = s.cameraFront := rfl

/-- A single mouse-move event in capture mode leaves pitch inside
[-89, 89]; outside capture mode pitch is unchanged. -/
lemma mouse_callback_pitch_mem (s : GState) (x y : ℝ)
    (h : -89 ≤ s.pitch ∧ s.pitch ≤ 89) :
    -89 ≤ (mouse_callback s x y).pitch ∧ (mouse_callback s x y).pitch ≤ 89 := by
  rw [mouse_callback]
  cases hp : s.leftMousePressed with
  | false => simpa [hp] using h
  | true =>
      simp only [hp, Bool.not_true, Bool.false_eq_true, if_false]
      simp only [apply_ite GState.pitch, apply_ite GState.lastY]
      split_ifs <;> constructor <;> linarith

/-- The squared components of the front formula sum to one. -/
lemma frontPre_sq_sum (y p : ℝ) :
    (frontPre y p).1 ^ 2 + (frontPre y p).2.1 ^ 2 + (frontPre y p).2.2 ^ 2 = 1 := by
  have h1 := Real.sin_sq_add_cos_sq (radians y)
  have h2 := Real.sin_sq_add_cos_sq (radians p)
  simp only [frontPre]
  nlinarith [h1, h2]

/-- The front formula already has unit length. -/
lemma vlen_frontPre (y p : ℝ) : vlen (frontPre y p) = 1 := by
  rw [vlen, frontPre_sq_sum, Real.sqrt_one]

/-- Normalizing the front formula is the identity on it. -/
lemma vnormalize_frontPre (y p : ℝ) : vnormalize (frontPre y p) = frontPre y p := by
  rw [vnormalize, vlen_frontPre, inv_one, one_smul]

/-- The normalized front formula has unit length. -/
lemma vlen_vnormalize_frontPre (y p : ℝ) : vlen (vnormalize (frontPre y p)) = 1 := by
  rw [vnormalize_frontPre, vlen_frontPre]

/-- The state right after a left-mouse press from the initial state: capture
mode on, baseline still pending, yaw -90 and pitch 0. -/
def captureState : GState := mouse_button_callback initState true

/-- Generic displacement lemma: if a fixed keyboard frame moves the camera
by 2.5 * dt along a direction computed from the (untouched) front vector,
then folding it over a list of delta times moves it by 2.5 times their sum
along that direction. -/
lemma holdKey_displacement (inp : Input) (dirf : Vec3 → Vec3)
    (hstep : ∀ (dt : ℝ) (st : GState),
      (processInput inp dt st).cameraPos = st.cameraPos + (2.5 * dt) • dirf st.cameraFront) :
    ∀ (dts : List ℝ) (s : GState),
      (holdKey inp s dts).cameraPos
        = s.cameraPos + (2.5 * dts.sum) • dirf s.cameraFront := by
  intro dts
  induction dts with
  | nil => intro s; simp [holdKey]
  | cons d rest ih =>
      intro s
      have hfold : holdKey inp s (d :: rest) = holdKey inp (processInput inp d s) rest := by
        simp [holdKey]
      rw [hfold, ih, hstep, processInput_cameraFront, List.sum_cons, mul_add, add_smul,
        add_assoc]

/-- Folding frames of a fixed keyboard state never changes the front
vector. -/
lemma holdKey_cameraFront (inp : Input) (dts : List ℝ) :
    ∀ s : GState, (holdKey inp s dts).cameraFront = s.cameraFront := by
  induction dts with
  | nil => intro s; simp [holdKey]
  | cons d rest ih =>
      intro s
      have hfold : holdKey inp s (d :: rest) = holdKey inp (processInput inp d s) rest := by
        simp [holdKey]
      rw [hfold, ih, processInput_cameraFront]

/-- Movement frames: only W, S, A or D held. -/
def inputW : Input := { inputNone with pressW := true }

/-- Only S held. -/
def inputS : Input := { inputNone with pressS := true }

/-- Only A held. -/
def inputA : Input := { inputNone with pressA := true }

/-- Only D held. -/
def inputD : Input := { inputNone with pressD := true }

/-- One W frame moves the camera forward by 2.5 * dt along front. -/
lemma processInput_pos_W (dt : ℝ) (st : GState) :
    (processInput inputW dt st).cameraPos = st.cameraPos + (2.5 * dt) • st.cameraFront := by
  simp [processInput, inputW, inputNone]

/-- One S frame moves the camera by 2.5 * dt along minus front. -/
lemma processInput_pos_S (dt : ℝ) (st : GState) :
    (processInput inputS dt st).cameraPos
      = st.cameraPos + (2.5 * dt) • (-st.cameraFront) := by
  simp [processInput, inputS, inputNone, smul_neg, sub_eq_add_neg]

/-- One A frame moves the camera by 2.5 * dt along minus the normalized
cross of front and up. -/
lemma processInput_pos_A (dt : ℝ) (st : GState) :
    (processInput inputA dt st).cameraPos
      = st.cameraPos + (2.5 * dt) • (-vnormalize (cross3 st.cameraFront cameraUp)) := by
  simp [processInput, inputA, inputNone, smul_neg, sub_eq_add_neg]

/-- One D frame moves the camera by 2.5 * dt along the normalized cross of
front and up. -/
lemma processInput_pos_D (dt : ℝ) (st : GState) :
    (processInput inputD dt st).cameraPos
      = st.cameraPos + (2.5 * dt) • vnormalize (cross3 st.cameraFront cameraUp) := by
  simp [processInput, inputD, inputNone]

/-! ## Claim theorems -/

set_option maxRecDepth 4000 in
/-- C1: evaluating the static vertex array from main: it holds 180 floats,
hence 30 six-float (position, color) vertices, while
glDrawArrays(GL_TRIANGLES, 0, 36) requests 36 vertices — the top face of the
cube is missing from the array, so the array vertex count does not match the
draw count. -/
theorem cube_vertex_count_mismatch :
    cubeVertices.length = 180 ∧
    cubeVertices.length / floatsPerVertex = 30 ∧
    drawCount = 36 :=
  ⟨rfl, rfl, rfl⟩

/-- A frame in which toggle key 1 (index 0) and the reset key are pressed
together. -/
def resetWithKey1 : Input := { inputOnly 0 with reset := true }

/-- C2 counterexample: a frame in which the reset key and toggle key 1 are
pressed together ends with the debounce flag of key 1 still set — the reset
branch does not clear the keyStates array, refuting the claim that all five
debounce flags are false after every reset frame. -/
theorem reset_keeps_held_debounce :
    (processInput resetWithKey1 0 initState).keyStates 0 = true := rfl

/-- C2 (amended): a frame with the reset key pressed ends with all five
toggles and all five flags false regardless of prior state; the debounce
flags are not cleared by the reset branch — after the frame each debounce
flag equals the pressed state of its toggle key in that frame, so it is false
exactly for the keys not held. -/
theorem reset_clears_toggles_not_debounce (s : GState) (inp : Input) (dt : ℝ)
    (hr : inp.reset = true) (i : Fin 5) :
    (processInput inp dt s).toggleStates i = false ∧
    (processInput inp dt s).flags i = false ∧
    (processInput inp dt s).keyStates i = inp.keys i := by
  rw [processInput_toggleStates, processInput_flags, processInput_keyStates]
  simp [hr]

/-- Witness for the amended C2 at a concrete frame. -/
theorem reset_clears_toggles_not_debounce_witness :
    resetWithKey1.reset = true ∧
    ((processInput resetWithKey1 0 initState).toggleStates 0 = false ∧
     (processInput resetWithKey1 0 initState).flags 0 = false ∧
     (processInput resetWithKey1 0 initState).keyStates 0 = resetWithKey1.keys 0) :=
  ⟨rfl, reset_clears_toggles_not_debounce initState resetWithKey1 0 rfl 0⟩

/-- C10: the toggle loop runs before the reset branch, so a frame with the
reset key pressed ends with every toggle and flag false even if toggle keys
flipped earlier in the same frame; a toggle key held in that frame keeps its
debounce flag set, and a following frame still holding that key (without
reset) leaves the toggle false rather than re-flipping it. -/
theorem toggles_then_reset (s : GState) (inp : Input) (dt : ℝ)
    (hr : inp.reset = true) (i : Fin 5) :
    (processInput inp dt s).toggleStates i = false ∧
    (processInput inp dt s).flags i = false ∧
    (inp.keys i = true → (processInput inp dt s).keyStates i = true) ∧
    (inp.keys i = true → ∀ (inp2 : Input) (dt2 : ℝ),
      inp2.keys i = true → inp2.reset = false →
      (processInput inp2 dt2 (processInput inp dt s)).toggleStates i = false) := by
  have ht : (processInput inp dt s).toggleStates i = false := by
    rw [processInput_toggleStates]; simp [hr]
  refine ⟨ht, ?_, ?_, ?_⟩
  · rw [processInput_flags]; simp [hr]
  · intro hk; rw [processInput_keyStates]; exact hk
  · intro hk inp2 dt2 hk2 hr2
    rw [processInput_toggleStates, processInput_keyStates]
    simp [hr2, hk, hk2, ht]

/-- Witness for C10 at a concrete frame: key 1 held together with reset,
then key 1 still held without reset. -/
theorem toggles_then_reset_witness :
    resetWithKey1.reset = true ∧ resetWithKey1.keys 0 = true ∧
    (inputOnly 0).keys 0 = true ∧ (inputOnly 0).reset = false ∧
    (processInput (inputOnly 0) 0 (processInput resetWithKey1 0 initState)).toggleStates 0
      = false :=
  ⟨rfl, by decide, by decide, rfl,
   (toggles_then_reset initState resetWithKey1 0 rfl 0).2.2.2 (by decide)
     (inputOnly 0) 0 (by decide) rfl⟩

/-- C5: (a) starting from the initial all-false state, n discrete presses of
toggle key i (release between presses, no reset) leave toggle i equal to the
parity of n; (b) a single press of key 2 sets exactly the rotation toggle
(index 1), the other four stay false; (c) while a key is continuously held a
second frame does not flip its toggle again. -/
theorem toggle_parity_single_flip :
    (∀ (i : Fin 5) (n : Nat),
      (applyFrames initState (pressRelease i n)).toggleStates i = decide (n % 2 = 1)) ∧
    ((processInput (inputOnly 1) 0 initState).toggleStates 1 = true ∧
     ∀ j : Fin 5, j ≠ 1 → (processInput (inputOnly 1) 0 initState).toggleStates j = false) ∧
    (∀ (s : GState) (inp : Input) (dt1 dt2 : ℝ) (i : Fin 5),
      inp.keys i = true → inp.reset = false →
      (processInput inp dt2 (processInput inp dt1 s)).toggleStates i =
        (processInput inp dt1 s).toggleStates i) := by
  refine ⟨fun i n => ?_, ⟨?_, fun j hj => ?_⟩, fun s inp dt1 dt2 i hk hr => ?_⟩
  · have h := (pressRelease_parity i n initState rfl).1
    simpa [initState] using h
  · rw [processInput_toggleStates]; simp [inputOnly, inputNone, initState]
  · rw [processInput_toggleStates]
    simp [inputOnly, inputNone, initState, hj]
  · rw [processInput_toggleStates (s := processInput inp dt1 s), processInput_keyStates]
    simp [hk, hr]

/-- Witness for C5 at concrete inputs: three presses of key 1 leave toggle 0
set; toggle index 2 differs from 1 and stays false after a key-2 press; a
second held frame of key 2 does not change toggle 1. -/
theorem toggle_parity_single_flip_witness :
    (applyFrames initState (pressRelease 0 3)).toggleStates 0 = decide (3 % 2 = 1) ∧
    ((2 : Fin 5) ≠ 1 ∧ (processInput (inputOnly 1) 0 initState).toggleStates 2 = false) ∧
    ((inputOnly 1).keys 1 = true ∧ (inputOnly 1).reset = false ∧
     (processInput (inputOnly 1) 0 (processInput (inputOnly 1) 0 initState)).toggleStates 1 =
       (processInput (inputOnly 1) 0 initState).toggleStates 1) :=
  ⟨toggle_parity_single_flip.1 0 3,
   ⟨by decide, toggle_parity_single_flip.2.1.2 2 (by decide)⟩,
   ⟨by decide, rfl,
    toggle_parity_single_flip.2.2 initState (inputOnly 1) 0 0 1 (by decide) rfl⟩⟩

/-- C8: main returns nonzero after printing the window diagnostic when
window creation fails, nonzero after printing the loader diagnostic when the
GPU function loader fails, and zero when the render loop exits on a normal
close request. -/
theorem exit_code_contract :
    (∀ g : Bool, (mainRun ⟨false, g⟩).1 = -1 ∧
      "Failed to create GLFW window" ∈ (mainRun ⟨false, g⟩).2) ∧
    ((mainRun ⟨true, false⟩).1 = -1 ∧
      "Failed to initialize GLAD" ∈ (mainRun ⟨true, false⟩).2) ∧
    (mainRun ⟨true, true⟩).1 = 0 := by
  refine ⟨fun g => ⟨?_, ?_⟩, ⟨?_, ?_⟩, ?_⟩ <;> simp [mainRun]

/-- C9: a mouse-move event delivered while capture mode is inactive leaves
the whole state unchanged: the callback returns at its first line, so yaw,
pitch, the front vector, and lastX and lastY keep their prior values. -/
theorem mouse_ignored_without_capture (s : GState) (x y : ℝ)
    (h : s.leftMousePressed = false) : mouse_callback s x y = s := by
  simp [mouse_callback, h]

/-- Witness for C9 at the initial state, where capture is inactive. -/
theorem mouse_ignored_without_capture_witness :
    initState.leftMousePressed = false ∧ mouse_callback initState 5 7 = initState :=
  ⟨rfl, mouse_ignored_without_capture initState 5 7 rfl⟩

/-- Button events never touch the pitch. -/
lemma mouse_button_callback_pitch (s : GState) (b : Bool) :
    (mouse_button_callback s b).pitch = s.pitch := by
  cases b <;> rfl

/-- One mouse event of either kind keeps pitch inside [-89, 89]. -/
lemma stepMouseEv_pitch_mem (s : GState) (e : MouseEv)
    (h : -89 ≤ s.pitch ∧ s.pitch ≤ 89) :
    -89 ≤ (stepMouseEv s e).pitch ∧ (stepMouseEv s e).pitch ≤ 89 := by
  cases e with
  | button b => rw [stepMouseEv, mouse_button_callback_pitch]; exact h
  | move x y => exact mouse_callback_pitch_mem s x y h

/-- C3: along any sequence of mouse events from the initial state (pitch 0)
— button presses and releases that enter and leave capture mode,
interleaved with cursor moves that are then really processed by
mouse_callback — the pitch after every event lies in [-89, 89]: every
prefix of a sequence is itself a sequence, so quantifying over all event
lists covers the pitch after each event. -/
theorem pitch_always_clamped (evs : List MouseEv) :
    -89 ≤ (mouseEvents initState evs).pitch ∧ (mouseEvents initState evs).pitch ≤ 89 := by
  have key : ∀ (l : List MouseEv) (s : GState),
      -89 ≤ s.pitch ∧ s.pitch ≤ 89 →
      -89 ≤ (mouseEvents s l).pitch ∧ (mouseEvents s l).pitch ≤ 89 := by
    intro l
    induction l with
    | nil => intro s hs; simpa [mouseEvents] using hs
    | cons e rest ih =>
        intro s hs
        have h1 := stepMouseEv_pitch_mem s e hs
        simpa [mouseEvents] using ih (stepMouseEv s e) h1
  refine key evs initState ?_
  constructor <;> norm_num [initState]

/-- C4: after a mouse-move event processed while capture mode is active, the
camera front vector equals the normalization of
(cos(yaw)*cos(pitch), sin(pitch), sin(yaw)*cos(pitch)) at the updated yaw
and pitch, and it has unit length. -/
theorem front_unit_after_update (s : GState) (x y : ℝ)
    (h : s.leftMousePressed = true) :
    (mouse_callback s x y).cameraFront =
      vnormalize (frontPre (mouse_callback s x y).yaw (mouse_callback s x y).pitch) ∧
    vlen (mouse_callback s x y).cameraFront = 1 := by
  rw [mouse_callback]
  simp only [h, Bool.not_true, Bool.false_eq_true, if_false]
  exact ⟨by trivial, vlen_vnormalize_frontPre _ _⟩

/-- Witness for C4 in capture mode at a concrete event. -/
theorem front_unit_after_update_witness :
    captureState.leftMousePressed = true ∧
    vlen (mouse_callback captureState 401 300).cameraFront = 1 :=
  ⟨rfl, (front_unit_after_update captureState 401 300 rfl).2⟩

/-- C7: from the state where capture mode was just entered (baseline
pending, yaw -90, pitch 0), the first sample at (400, 300) contributes zero
offset, and the following sample at (410, 300) raises yaw by exactly one
degree to -89 with pitch still 0. -/
theorem capture_baseline_then_yaw_step :
    (mouse_callback captureState 400 300).yaw = -90 ∧
    (mouse_callback captureState 400 300).pitch = 0 ∧
    (mouse_callback (mouse_callback captureState 400 300) 410 300).yaw = -89 ∧
    (mouse_callback (mouse_callback captureState 400 300) 410 300).pitch = 0 := by
  have h2 : (mouse_callback captureState 400 300).yaw = -90 := by
    rw [mouse_callback]
    simp [captureState, mouse_button_callback, initState, sensitivity,
      apply_ite GState.yaw, apply_ite GState.lastX]
  have h3 : (mouse_callback captureState 400 300).pitch = 0 := by
    rw [mouse_callback]
    simp [captureState, mouse_button_callback, initState, sensitivity,
      apply_ite GState.pitch, apply_ite GState.lastY]
    norm_num
  have h4 : (mouse_callback captureState 400 300).lastX = 400 := by
    rw [mouse_callback]
    simp [captureState, mouse_button_callback, initState]
  have h5 : (mouse_callback captureState 400 300).lastY = 300 := by
    rw [mouse_callback]
    simp [captureState, mouse_button_callback, initState]
  have h6 : (mouse_callback captureState 400 300).firstMouse = false := by
    rw [mouse_callback]
    simp [captureState, mouse_button_callback, initState,
      apply_ite GState.firstMouse]
  have h7 : (mouse_callback captureState 400 300).leftMousePressed = true := by
    rw [mouse_callback]
    simp [captureState, mouse_button_callback, initState,
      apply_ite GState.leftMousePressed]
  refine ⟨h2, h3, ?_, ?_⟩ <;>
    · rw [mouse_callback]
      simp only [h7, Bool.not_true, Bool.false_eq_true, if_false, h6,
        apply_ite GState.yaw, apply_ite GState.pitch, apply_ite GState.lastX,
        apply_ite GState.lastY]
      norm_num [h2, h3, h4, h5, sensitivity]

/-- C6: holding a single movement key over any partition of a duration into
per-frame delta times, with the front vector untouched by processInput,
displaces the camera by 2.5 times the summed time along the matching axis:
W along front, S along minus front, A along minus the normalized cross of
front and up, D along plus it — independent of the partition. -/
theorem movement_displacement (s : GState) (dts : List ℝ)
    (hpos : ∀ d ∈ dts, (0:ℝ) < d) :
    (∀ inp : Input, (holdKey inp s dts).cameraFront = s.cameraFront) ∧
    (holdKey inputW s dts).cameraPos = s.cameraPos + (2.5 * dts.sum) • s.cameraFront ∧
    (holdKey inputS s dts).cameraPos = s.cameraPos - (2.5 * dts.sum) • s.cameraFront ∧
    (holdKey inputA s dts).cameraPos
      = s.cameraPos - (2.5 * dts.sum) • vnormalize (cross3 s.cameraFront cameraUp) ∧
    (holdKey inputD s dts).cameraPos
      = s.cameraPos + (2.5 * dts.sum) • vnormalize (cross3 s.cameraFront cameraUp) := by
  refine ⟨?_, ?_, ?_, ?_, ?_⟩
  · intro inp
    exact holdKey_cameraFront inp dts s
  · exact holdKey_displacement inputW (fun f => f) processInput_pos_W dts s
  · rw [holdKey_displacement inputS (fun f => -f) processInput_pos_S dts s,
      smul_neg, sub_eq_add_neg]
  · rw [holdKey_displacement inputA (fun f => -vnormalize (cross3 f cameraUp))
      processInput_pos_A dts s, smul_neg, sub_eq_add_neg]
  · exact holdKey_displacement inputD (fun f => vnormalize (cross3 f cameraUp))
      processInput_pos_D dts s

/-- Witness for C6 at the initial state with the duration 1 split into two
positive half steps. -/
theorem movement_displacement_witness :
    (∀ d ∈ [(0.5:ℝ), 0.5], (0:ℝ) < d) ∧
    (holdKey inputW initState [0.5, 0.5]).cameraPos
      = initState.cameraPos + (2.5 * ([(0.5:ℝ), 0.5]).sum) • initState.cameraFront := by
  have hd : ∀ d ∈ [(0.5:ℝ), 0.5], (0:ℝ) < d := by
    intro d hd
    rcases List.mem_cons.mp hd with h | h
    · rw [h]; norm_num
    · rcases List.mem_cons.mp h with h2 | h2
      · rw [h2]; norm_num
      · simp at h2
  exact ⟨hd, (movement_displacement initState [0.5, 0.5] hd).2.1⟩

end OpenGlCube
